import Mathlib

/-!
Verification of the xpub-scan tool (`src/main.rs`, `src/api.rs`).

The development shallowly embeds the program's logic:

* BIP32 derivation-path arithmetic (`ChildNumber`, `increment`,
  `get_path_except_last`, the `last().unwrap()` split in `main`);
* the JSON balance extraction and unit conversion of `api.rs`
  (`get_value_by_path`, `get_address_sats`);
* the scan orchestrator of `main` (the derivation `while` loop and the four
  per-address-kind loops), modelled as a pure function producing a trace of
  observable events (derivations, balance fetches, printed pairs).

The cryptographic primitives (child-key derivation proper, address
encodings, HTTP) come from trusted external libraries; they are modelled as
parameters, bundled in the `Lib` structure, while every piece of logic
written in this repository is translated concretely.
-/

namespace XpubScan

/-- Errors of the bitcoin library operations the program calls
(`bitcoin::bip32::Error`): an out-of-range child number rejected by
`ChildNumber::from_normal_idx` / `from_hardened_idx` (this is the failure
`ChildNumber::increment` propagates on overflow), hardened derivation
attempted from a public-only key, and invalid key material met during
derivation. -/
inductive Bip32Err where
  | invalidChildNumber (index : Nat)
  | hardenedDerivation
  | invalidKeyMaterial
  deriving DecidableEq, Repr

/-- A BIP32 child number, one derivation-path component
(`bitcoin::bip32::ChildNumber`): a normal or hardened 31-bit index.
The library's constructors (`from_normal_idx`, `from_hardened_idx`,
`FromStr`) enforce `index < 2^31`; indices are `Nat` here with that
invariant maintained by the same checks. -/
inductive ChildNumber where
  | normal (index : Nat)
  | hardened (index : Nat)
  deriving DecidableEq, Repr

/-- Model of `u32::from(ChildNumber)`: a normal child number is its index, a
hardened one is `index | (1 << 31)`, which equals `index + 2^31` on the
in-range indices (`index < 2^31`) enforced by the library's constructors. -/
def ChildNumber.toU32 : ChildNumber → Nat
  | .normal index => index
  | .hardened index => index + 2 ^ 31

/-- Model of `ChildNumber::from_normal_idx`: accepts exactly the indices
whose bit 31 is clear, i.e. (on `u32` inputs) `index < 2^31`. -/
def ChildNumber.from_normal_idx (index : Nat) : Except Bip32Err ChildNumber :=
  if index < 2 ^ 31 then .ok (.normal index) else .error (.invalidChildNumber index)

/-- Model of `ChildNumber::from_hardened_idx`: same range check as
`from_normal_idx`, producing a hardened child number. -/
def ChildNumber.from_hardened_idx (index : Nat) : Except Bip32Err ChildNumber :=
  if index < 2 ^ 31 then .ok (.hardened index) else .error (.invalidChildNumber index)

/-- Model of `ChildNumber::increment` (called at `main.rs:122`): re-checks
the incremented index through the range-checked constructor, so incrementing
the maximal 31-bit index fails. -/
def ChildNumber.increment : ChildNumber → Except Bip32Err ChildNumber
  | .normal index => ChildNumber.from_normal_idx (index + 1)
  | .hardened index => ChildNumber.from_hardened_idx (index + 1)

/-- Model of `get_path_except_last` (`main.rs:177-183`). A derivation path
is its list of child numbers. On an empty path the slice
`&child_numbers[..child_numbers.len() - 1]` panics (the `usize` subtraction
underflows); `none` models that panic. -/
def get_path_except_last (path : List ChildNumber) : Option (List ChildNumber) :=
  if path.length = 0 then none else some path.dropLast

/-- Model of `main.rs:109-110`, the split of the scan path into loop index
and parent path: `deriv_path.into_iter().last().unwrap()` followed by
`get_path_except_last(&deriv_path)`. `none` models a panic: on an empty
path, `.last()` is `None` and the `unwrap` panics (and
`get_path_except_last` would panic as well). No error value is ever
returned. -/
def splitLast (path : List ChildNumber) : Option (List ChildNumber × ChildNumber) :=
  match path.getLast? with
  | none => none
  | some cn =>
    match get_path_except_last path with
    | none => none
    | some parent => some (parent, cn)

/-- The error value the specification prescribes for splitting an empty
path. The source never constructs such a value; the type exists to state
the spec's claimed behaviour next to the code's actual behaviour. -/
inductive PathSplitErr where
  | emptyPath
  deriving DecidableEq, Repr

/-- Modelled from the spec (section 4.1), not from the source:
`splitLast(path) -> (parentPath, lastIndex)` "fails with `EmptyPath` if the
path has zero components". Used only to compare the spec's prescribed
behaviour with the source's `splitLast` above. -/
def splitLast_specModel (path : List ChildNumber) :
    Except PathSplitErr (List ChildNumber × ChildNumber) :=
  match path.getLast? with
  | none => .error .emptyPath
  | some cn => .ok (path.dropLast, cn)

/-- Model of `DerivationPath::child`: append one child number
(`path_except_last.child(cn)` at `main.rs:120`). -/
def child (path : List ChildNumber) (cn : ChildNumber) : List ChildNumber :=
  path ++ [cn]

/-- The `ScriptPubKeyType` enumeration of `main.rs:14-24`. -/
inductive ScriptPubKeyType where
  | P2PKH
  | P2SHWPKH
  | P2WPKH
  | P2TR
  deriving DecidableEq, BEq, Repr

/-- Errors raised by `main` outside the bitcoin library: an unrecognized
`--type` token (`parse_enum_values`, `main.rs:169`). -/
inductive ArgErr where
  | invalidEnumValue (value : String)
  deriving DecidableEq, Repr

/-- Model of `parse_enum_values` (`main.rs:160-174`): each token is
uppercased and matched against the four kind names; the first unrecognized
token aborts with an error, otherwise the kinds are collected in order. -/
def parse_enum_values : List String → Except ArgErr (List ScriptPubKeyType)
  | [] => .ok []
  | value :: rest =>
    match value.toUpper with
    | "P2PKH" => (parse_enum_values rest).map (fun l => .P2PKH :: l)
    | "P2SHWPKH" => (parse_enum_values rest).map (fun l => .P2SHWPKH :: l)
    | "P2WPKH" => (parse_enum_values rest).map (fun l => .P2WPKH :: l)
    | "P2TR" => (parse_enum_values rest).map (fun l => .P2TR :: l)
    | _ => .error (.invalidEnumValue value)

/-! ## The balance API (`api.rs`) -/

/-- A JSON number as `serde_json` represents it (without the
`arbitrary_precision` feature): an unsigned 64-bit integer, a negative
64-bit integer, or a float. Every fractional JSON literal (and every
integer literal outside the 64-bit ranges) is stored as a float;
deserializing a `u32` from a float always fails, so the float's value is
irrelevant to this development and is not carried. -/
inductive JNum where
  | posInt (n : Nat)
  | negInt (n : Int)
  | float
  deriving DecidableEq, Repr

/-- A `serde_json::Value`. -/
inductive Value where
  | null
  | bool (b : Bool)
  | num (n : JNum)
  | str (s : String)
  | arr (elems : List Value)
  | obj (fields : List (String × Value))

/-- Whether a JSON value is an object. -/
def Value.isObj : Value → Bool
  | .obj _ => true
  | _ => false

/-- Errors of the `api.rs` functions: network/JSON-decoding failure of
`get_address`, a missing key during the dot-path walk ("Key ... not found
in JSON path"), a non-object met while a key remains to be looked up
("Expected an object at key ..."), deserialization failure of the value at
the path ("Failed to deserialize value at path ..."), and a unit string
other than `btc`/`sat` ("Unit must be btc or sat"). -/
inductive ApiErr where
  | networkFailure
  | pathNotFound (key : String)
  | typeMismatch (key : String)
  | deserializeFailed (path : String)
  | invalidUnit
  deriving DecidableEq, Repr

/-- Accumulator loop for `splitOnChar`. -/
def splitOnCharAux (sep : Char) : List Char → List Char → List (List Char)
  | [], acc => [acc.reverse]
  | c :: cs, acc =>
    if c = sep then acc.reverse :: splitOnCharAux sep cs []
    else splitOnCharAux sep cs (c :: acc)

/-- Model of Rust's `str::split(sep)` for a one-character separator (used
with `'.'` by `get_value_by_path` and `','` by `get_vec`): splits at every
occurrence of the separator, keeping empty pieces, and yields `[""]` on the
empty string. -/
def splitOnChar (sep : Char) (s : String) : List String :=
  (splitOnCharAux sep s.data []).map String.mk

/-- Association lookup in a JSON object's fields. The source holds the
response in a `HashMap` / `serde_json::Map` and takes the value with
`obj.remove(key)`; only the extracted value is used afterwards, so a
lookup models it. -/
def lookupField (fields : List (String × Value)) (key : String) : Option Value :=
  match fields with
  | [] => none
  | (k, v) :: rest => if k = key then some v else lookupField rest key

/-- The key-walking loop of `get_value_by_path` (`api.rs:46-57`): for each
key, the current value must be an object; a missing key yields the
"not found" error, a non-object the "expected an object" error. -/
def walkPath : List String → Value → Except ApiErr Value
  | [], v => .ok v
  | key :: rest, v =>
    match v with
    | .obj fields =>
      match lookupField fields key with
      | some v' => walkPath rest v'
      | none => .error (.pathNotFound key)
    | _ => .error (.typeMismatch key)

/-- Model of `get_value_by_path` up to (not including) the final
`T::deserialize` (`api.rs:39-57`): split the dot-path on `'.'` and walk the
JSON object. -/
def get_value_by_path_raw (map : List (String × Value)) (path : String) :
    Except ApiErr Value :=
  walkPath (splitOnChar '.' path) (Value.obj map)

/-- Deserializing a `u32` from a `serde_json::Value` (the `T::deserialize`
call at `api.rs:59` with `T = u32`): succeeds exactly on integer numbers in
`[0, 2^32)`; negative integers, floats (hence every fractional value) and
non-numbers fail. -/
def deserialize_u32 : Value → Option Nat
  | .num (.posInt n) => if n < 2 ^ 32 then some n else none
  | _ => none

/-- Model of the full `get_value_by_path::<u32>` (`api.rs:39-63`): walk,
then deserialize, mapping a deserialization failure to the
"Failed to deserialize value at path" error. -/
def get_value_by_path_u32 (map : List (String × Value)) (path : String) :
    Except ApiErr Nat :=
  match get_value_by_path_raw map path with
  | .error e => .error e
  | .ok v =>
    match deserialize_u32 v with
    | some n => .ok n
    | none => .error (.deserializeFailed path)

/-- The pure part of `get_address_sats` (`api.rs:21-31`), given the JSON
response `map` and the configured balance path and unit: extract the `u32`
balance at the path, then convert — `btc` divides by 100 000 000
(truncating `u32` division), `sat` is the identity, anything else is the
"Unit must be btc or sat" error. -/
def get_address_sats_model (map : List (String × Value)) (path unit : String) :
    Except ApiErr Nat :=
  match get_value_by_path_u32 map path with
  | .error e => .error e
  | .ok bal =>
    match unit with
    | "btc" => .ok (bal / 100000000)
    | "sat" => .ok bal
    | _ => .error .invalidUnit

/-- The property the implicit-balance claim singles out: a JSON number that
is negative, fractional (stored as a float), or at least `2^32`. -/
def JNum.badForU32 : JNum → Bool
  | .posInt n => decide (2 ^ 32 ≤ n)
  | .negInt _ => true
  | .float => true

/-! ## Declarative specification of the dot-path walk

Used to state the claim about `get_value_by_path` independently of its
recursion: `Resolves v keys w` says the walk from `v` along `keys` reaches
`w`; `FailsMissing v keys k` says it gets stuck at key `k` absent from the
object it is looked up in; `FailsType v keys k` says it gets stuck trying
to look key `k` up in a non-object (i.e. the value an earlier, intermediate
segment resolved to is not an object). -/

inductive Resolves : Value → List String → Value → Prop
  | nil (v : Value) : Resolves v [] v
  | cons {fields : List (String × Value)} {key : String} {v' w : Value}
      {rest : List String} :
      lookupField fields key = some v' → Resolves v' rest w →
      Resolves (.obj fields) (key :: rest) w

inductive FailsMissing : Value → List String → String → Prop
  | here {fields : List (String × Value)} {key : String} {rest : List String} :
      lookupField fields key = none → FailsMissing (.obj fields) (key :: rest) key
  | there {fields : List (String × Value)} {key : String} {v' : Value}
      {rest : List String} {k : String} :
      lookupField fields key = some v' → FailsMissing v' rest k →
      FailsMissing (.obj fields) (key :: rest) k

inductive FailsType : Value → List String → String → Prop
  | here {v : Value} {key : String} {rest : List String} :
      v.isObj = false → FailsType v (key :: rest) key
  | there {fields : List (String × Value)} {key : String} {v' : Value}
      {rest : List String} {k : String} :
      lookupField fields key = some v' → FailsType v' rest k →
      FailsType (.obj fields) (key :: rest) k

/-! ## The scan orchestrator (`main.rs:105-157`)

The cryptographic library calls are abstracted as a bundle of functions:
`derive_pub` (which may fail, e.g. on a hardened component), the
`to_pub` / `to_x_only_pub` projections, and the four address encoders
(`Address::p2pkh/p2shwpkh/p2wpkh/p2tr` followed by `to_string`). The
orchestrator's own logic — the ranges, loops, orderings and error
propagation — is translated concretely, producing a trace of the
observable events. -/

/-- The bundle of bitcoin-library functions `main` calls. -/
structure Lib (Xpub PubKey XOnlyKey : Type) where
  derive_pub : Xpub → List ChildNumber → Except Bip32Err Xpub
  to_pub : Xpub → PubKey
  to_x_only_pub : Xpub → XOnlyKey
  p2pkh : PubKey → String
  p2shwpkh : PubKey → String
  p2wpkh : PubKey → String
  p2tr : XOnlyKey → String

/-- An observable event of a run: a child-key derivation
(`xpub.derive_pub(&secp, &dp)` at `main.rs:121`), a balance fetch (the
single HTTP request of `api::get_address` for one address), an emitted
`address: balance` line (`println!` in the kind loops), or the
pretty-printed JSON of query mode. -/
inductive Event where
  | derive (dp : List ChildNumber)
  | fetch (addr : String)
  | emit (addr : String) (bal : Nat)
  | printJson (s : String)
  deriving DecidableEq, Repr

/-- An error propagated out of the scan: a bitcoin-library failure (from
derivation or `increment`) or a balance-API failure. -/
inductive ScanErr where
  | bip32 (e : Bip32Err)
  | api (e : ApiErr)
  deriving DecidableEq, Repr

variable {Xpub PubKey XOnlyKey : Type}

/-- The derivation `while` loop of `main.rs:119-123`: while
`limit > u32::from(cn)`, derive at `path_except_last.child(cn)`, push the
key, and increment `cn`, propagating either failure. Returns the trace of
derivation events next to the collected keys. -/
def deriveLoop (lib : Lib Xpub PubKey XOnlyKey) (xpub : Xpub)
    (path_except_last : List ChildNumber) (limit : Nat) (cn : ChildNumber) :
    List Event × Except ScanErr (List Xpub) :=
  if h : ChildNumber.toU32 cn < limit then
    match lib.derive_pub xpub (child path_except_last cn) with
    | .error e => ([Event.derive (child path_except_last cn)], .error (.bip32 e))
    | .ok pk =>
      match hinc : ChildNumber.increment cn with
      | .error e => ([Event.derive (child path_except_last cn)], .error (.bip32 e))
      | .ok cn' =>
        let rest := deriveLoop lib xpub path_except_last limit cn'
        (Event.derive (child path_except_last cn) :: rest.1,
         rest.2.map (fun l => pk :: l))
  else ([], .ok [])
termination_by limit - ChildNumber.toU32 cn
decreasing_by
  have hlt : ChildNumber.toU32 cn < ChildNumber.toU32 cn' := by
    cases cn <;>
      simp only [ChildNumber.increment, ChildNumber.from_normal_idx,
        ChildNumber.from_hardened_idx] at hinc <;>
      split at hinc <;> simp_all <;> subst hinc <;>
      simp [ChildNumber.toU32]
  omega

/-- One per-kind loop body (`main.rs:126-130` and its three copies): for
each derived key, encode the address, fetch its balance (aborting the scan
on failure), and print `address: balance`. -/
def addrLoop (api : String → Except ApiErr Nat) (enc : Xpub → String) :
    List Xpub → List Event × Except ApiErr Unit
  | [] => ([], .ok ())
  | pk :: rest =>
    match api (enc pk) with
    | .error e => ([Event.fetch (enc pk)], .error e)
    | .ok bal =>
      let r := addrLoop api enc rest
      (Event.fetch (enc pk) :: Event.emit (enc pk) bal :: r.1, r.2)

/-- The address encoder each `ScriptPubKeyType` branch uses
(`Address::p2pkh(&pk.to_pub(), ..)`, …, `Address::p2tr(.., pk.to_x_only_pub(), ..)`). -/
def encoderOf (lib : Lib Xpub PubKey XOnlyKey) :
    ScriptPubKeyType → Xpub → String
  | .P2PKH => fun pk => lib.p2pkh (lib.to_pub pk)
  | .P2SHWPKH => fun pk => lib.p2shwpkh (lib.to_pub pk)
  | .P2WPKH => fun pk => lib.p2wpkh (lib.to_pub pk)
  | .P2TR => fun pk => lib.p2tr (lib.to_x_only_pub pk)

/-- The guard of each kind's `if` block:
`addr_types.is_empty() || addr_types.contains(&kind)`. -/
def kindGuard (addr_types : List ScriptPubKeyType) (t : ScriptPubKeyType) : Bool :=
  addr_types.isEmpty || addr_types.contains t

/-- The fixed order in which `main` checks the four kinds
(`main.rs:125`, `133`, `141`, `149`). -/
def allKinds : List ScriptPubKeyType :=
  [.P2PKH, .P2SHWPKH, .P2WPKH, .P2TR]

/-- The sequence of guarded per-kind blocks of `main.rs:125-155`,
generalized over the list of kinds; `main` is the instance at `allKinds`.
Each guarded block runs to completion (or aborts everything) before the
next kind is considered. -/
def kindLoops (lib : Lib Xpub PubKey XOnlyKey) (api : String → Except ApiErr Nat)
    (addr_types : List ScriptPubKeyType) (pubkeys : List Xpub) :
    List ScriptPubKeyType → List Event × Except ApiErr Unit
  | [] => ([], .ok ())
  | t :: ts =>
    if kindGuard addr_types t then
      let r := addrLoop api (encoderOf lib t) pubkeys
      match r.2 with
      | .error e => (r.1, .error e)
      | .ok _ =>
        let rest := kindLoops lib api addr_types pubkeys ts
        (r.1 ++ rest.1, rest.2)
    else kindLoops lib api addr_types pubkeys ts

/-- The scan of `main.rs:113-157` after the request is resolved: compute
`start = u32::from(cn)` and `limit = start + count` (`u32` addition, hence
the `% 2^32`), run the derivation loop, then the four kind loops over the
collected keys. -/
def scan (lib : Lib Xpub PubKey XOnlyKey) (api : String → Except ApiErr Nat)
    (xpub : Xpub) (path_except_last : List ChildNumber) (cn : ChildNumber)
    (addr_types : List ScriptPubKeyType) (count : Nat) :
    List Event × Except ScanErr Unit :=
  let limit := (ChildNumber.toU32 cn + count) % 2 ^ 32
  let d := deriveLoop lib xpub path_except_last limit cn
  match d.2 with
  | .error e => (d.1, .error e)
  | .ok pubkeys =>
    let r := kindLoops lib api addr_types pubkeys allKinds
    (d.1 ++ r.1, r.2.mapError ScanErr.api)

/-- A stub instantiation of the library bundle over `Unit` key types, used
to evaluate the orchestrator on concrete inputs: every derivation succeeds
and the four encoders return fixed strings. -/
def unitLib : Lib Unit Unit Unit :=
  ⟨fun _ _ => .ok (), fun _ => (), fun _ => (), fun _ => "a", fun _ => "b",
   fun _ => "c", fun _ => "d"⟩

/-- Trace projection: the derivation paths attempted. -/
def Event.deriveOf : Event → Option (List ChildNumber)
  | .derive dp => some dp
  | _ => none

/-- Trace projection: the addresses whose balance was fetched. -/
def Event.fetchOf : Event → Option String
  | .fetch addr => some addr
  | _ => none

/-- Trace projection: the emitted `(address, balance)` pairs. -/
def Event.emitOf : Event → Option (String × Nat)
  | .emit addr bal => some (addr, bal)
  | _ => none

/-- Trace projection: the address strings of the emitted pairs. -/
def Event.emitAddrOf : Event → Option String
  | .emit addr _ => some addr
  | _ => none

/-! ## The top of `main` (`main.rs:89-115`) -/

/-- The command-line arguments (`Args`, `main.rs:26-48`), after `clap`. -/
structure Args where
  xpub : Option String
  path : Option String
  count : Option Nat
  type : Option (List String)
  query : Option String

/-- The scan-related environment variables, as (possibly unset) raw
strings. -/
structure MainEnv where
  scan_xpub : Option String
  scan_path : Option String
  scan_count : Option String
  scan_type : Option String

/-- The string parsers `main` gets from external libraries:
`Xpub::from_str`, `DerivationPath::from_str`, `u32::from_str`. -/
structure Parsers (Xpub : Type) where
  parseXpub : String → Option Xpub
  parseDerivationPath : String → Option (List ChildNumber)
  parseU32 : String → Option Nat

/-- The network-facing pieces of `api.rs`: `get_address` (one HTTP request
returning the decoded JSON object) and `serde_json::to_string_pretty`. -/
structure QueryApi where
  fetchJson : String → Except ApiErr (List (String × Value))
  pretty : List (String × Value) → String

/-- Model of `get_value` (`main.rs:50-65`) at `T = String` (used for the
path): the flag if present, else the environment value (`String` parsing
never fails), else the default. -/
def get_value_str (opt : Option String) (envVal : Option String)
    (defval : String) : String :=
  match opt with
  | some v => v
  | none =>
    match envVal with
    | some s => s
    | none => defval

/-- Model of `get_value` (`main.rs:50-65`) at `T = u32` (used for the
count): the flag if present, else the environment value when it parses,
else the default. -/
def get_value_u32 (opt : Option Nat) (envVal : Option String)
    (parseU32 : String → Option Nat) (defval : Nat) : Nat :=
  match opt with
  | some v => v
  | none =>
    match envVal with
    | some s =>
      match parseU32 s with
      | some v => v
      | none => defval
    | none => defval

/-- Model of `get_vec` (`main.rs:67-87`) at `T = String` (used for the
types): the flag if present, else the environment value split on `','` with
each piece trimmed (`String` parsing never fails), else the default. -/
def get_vec_str (opt : Option (List String)) (envVal : Option String)
    (defval : List String) : List String :=
  match opt with
  | some v => v
  | none =>
    match envVal with
    | some s => (splitOnChar ',' s).map String.trim
    | none => defval

/-- The error surface of a whole run. -/
inductive MainErr where
  | invalidXpub
  | malformedPath
  | arg (e : ArgErr)
  | scan (e : ScanErr)
  | api (e : ApiErr)
  deriving DecidableEq, Repr

/-- The outcome of a run: clean exit, a propagated error (non-zero exit),
or a panic (`expect`/`unwrap`/slice index). -/
inductive MainOutcome where
  | ok
  | error (e : MainErr)
  | panicked
  deriving DecidableEq, Repr

/-- Model of `main` (`main.rs:89-157`). The `--query` switch is checked
first: it performs the single balance lookup of `display_api_response`
(`api.rs:33-37`), prints the pretty JSON and returns. Otherwise the xpub
string is the positional argument or the `SCAN_XPUB` variable (panicking if
both are absent), the path / count / types are resolved through
`get_value` / `get_vec`, the path is split (panicking on an empty path),
the type tokens are parsed, and the scan runs with the balance function
`api` (`api::get_address_sats`). -/
def mainModel (lib : Lib Xpub PubKey XOnlyKey) (P : Parsers Xpub)
    (q : QueryApi) (api : String → Except ApiErr Nat)
    (env : MainEnv) (args : Args) : List Event × MainOutcome :=
  match args.query with
  | some query =>
    match q.fetchJson query with
    | .error e => ([Event.fetch query], .error (.api e))
    | .ok map => ([Event.fetch query, Event.printJson (q.pretty map)], .ok)
  | none =>
    match args.xpub.orElse (fun _ => env.scan_xpub) with
    | none => ([], .panicked)
    | some val =>
      match P.parseXpub val with
      | none => ([], .error .invalidXpub)
      | some xpub =>
        match P.parseDerivationPath (get_value_str args.path env.scan_path "0/0") with
        | none => ([], .error .malformedPath)
        | some deriv_path =>
          match splitLast deriv_path with
          | none => ([], .panicked)
          | some (path_except_last, cn) =>
            match parse_enum_values (get_vec_str args.type env.scan_type []) with
            | .error e => ([], .error (.arg e))
            | .ok addr_types =>
              let count := get_value_u32 args.count env.scan_count P.parseU32 10
              let r := scan lib api xpub path_except_last cn addr_types count
              (r.1,
               match r.2 with
               | .ok _ => .ok
               | .error e => .error (.scan e))

/-! ## Theorems -/

/-- C4 counterexample: the claim says splitting a path with zero components
fails with an `EmptyPath` error rather than crashing. The code's split
(`main.rs:109`, `.last().unwrap()`) panics on the empty path — modelled by
`none` — while the spec's prescribed behaviour (`splitLast_specModel`)
returns the `EmptyPath` error; the two differ, and no error value is ever
produced by the code. -/
theorem splitLast_empty_no_error :
    splitLast ([] : List ChildNumber) = none ∧
    splitLast_specModel ([] : List ChildNumber) = .error .emptyPath :=
  ⟨rfl, rfl⟩

/-- C4 (amended): splitting a derivation path with zero components panics
(crashes via `unwrap` on `None`, and the slice in `get_path_except_last`
would panic as well) instead of returning an `EmptyPath` error; on every
non-empty path the split succeeds. -/
theorem splitLast_empty_panics :
    splitLast ([] : List ChildNumber) = none ∧
    ∀ p : List ChildNumber, p ≠ [] → ∃ pr, splitLast p = some pr := by
  refine ⟨rfl, fun p h => ⟨(p.dropLast, p.getLast h), ?_⟩⟩
  simp [splitLast, get_path_except_last, List.getLast?_eq_getLast p h,
    List.length_eq_zero, h]

/-- Witness for the amended C4 at the one-component path `0`. -/
theorem splitLast_empty_panics_witness :
    ∃ pr, splitLast [ChildNumber.normal 0] = some pr :=
  splitLast_empty_panics.2 [ChildNumber.normal 0] (by decide)

/-- C5: for every non-empty derivation path `p`, appending the last index
returned by the split to the parent path returned by the split
(`DerivationPath::child`) yields `p` back. -/
theorem splitLast_roundtrip (p : List ChildNumber) (h : p ≠ []) :
    ∃ parent cn, splitLast p = some (parent, cn) ∧ child parent cn = p := by
  refine ⟨p.dropLast, p.getLast h, ?_, ?_⟩
  · simp [splitLast, get_path_except_last, List.getLast?_eq_getLast p h,
      List.length_eq_zero, h]
  · simpa [child] using List.dropLast_append_getLast h

/-- Witness for C5 at the path `0/5`. -/
theorem splitLast_roundtrip_witness :
    ∃ parent cn,
      splitLast [ChildNumber.normal 0, ChildNumber.normal 5] = some (parent, cn) ∧
      child parent cn = [ChildNumber.normal 0, ChildNumber.normal 5] :=
  splitLast_roundtrip _ (by decide)

/-- C6: incrementing the maximal non-hardened child index `2^31 - 1` fails
with the overflow error (`InvalidChildNumber`, the spec's `IndexOverflow`),
and incrementing any lesser non-hardened index `i` succeeds with `i + 1`. -/
theorem increment_boundary :
    ChildNumber.increment (.normal (2 ^ 31 - 1)) =
      .error (.invalidChildNumber (2 ^ 31)) ∧
    ∀ i : Nat, i < 2 ^ 31 - 1 →
      ChildNumber.increment (.normal i) = .ok (.normal (i + 1)) := by
  constructor
  · rfl
  · intro i hi
    show ChildNumber.from_normal_idx (i + 1) = _
    simp only [ChildNumber.from_normal_idx]
    rw [if_pos (by omega)]

/-- Witness for C6 at index 5. -/
theorem increment_boundary_witness :
    ChildNumber.increment (.normal 5) = .ok (.normal 6) :=
  increment_boundary.2 5 (by norm_num)

/-- C7: once the integer balance `b` has been extracted at the configured
path, `get_address_sats` returns `b / 100_000_000` (truncating) for the
unit `"btc"`, returns `b` unchanged for `"sat"`, and fails with the
invalid-unit error for every other unit string. -/
theorem get_address_sats_conversion (map : List (String × Value))
    (path : String) (b : Nat) (h : get_value_by_path_u32 map path = .ok b) :
    get_address_sats_model map path "btc" = .ok (b / 100000000) ∧
    get_address_sats_model map path "sat" = .ok b ∧
    ∀ unit : String, unit ≠ "btc" → unit ≠ "sat" →
      get_address_sats_model map path unit = .error .invalidUnit := by
  unfold get_address_sats_model
  rw [h]
  refine ⟨rfl, rfl, fun unit h1 h2 => ?_⟩
  split <;> simp_all

/-- Witness for C7: a response with balance 800 000 000 converts to 8 in
`btc`, to 800 000 000 in `sat`, and fails for the unit `eth`. -/
theorem get_address_sats_conversion_witness :
    get_address_sats_model [("balance", .num (.posInt 800000000))] "balance" "btc" =
      .ok 8 ∧
    get_address_sats_model [("balance", .num (.posInt 800000000))] "balance" "sat" =
      .ok 800000000 ∧
    get_address_sats_model [("balance", .num (.posInt 800000000))] "balance" "eth" =
      .error .invalidUnit := by
  have h := get_address_sats_conversion
    [("balance", .num (.posInt 800000000))] "balance" 800000000 rfl
  exact ⟨h.1, h.2.1, h.2.2 "eth" (by decide) (by decide)⟩

/-- Helper for C8: the walk succeeds exactly on declaratively resolvable
paths. -/
theorem walkPath_ok_iff (keys : List String) :
    ∀ (v w : Value), walkPath keys v = .ok w ↔ Resolves v keys w := by
  induction keys with
  | nil =>
    intro v w
    constructor
    · intro h
      obtain rfl : v = w := by simpa [walkPath] using h
      exact Resolves.nil v
    · rintro ⟨⟩
      rfl
  | cons key rest ih =>
    intro v w
    constructor
    · intro h
      match v with
      | .obj fields =>
        simp only [walkPath] at h
        cases hl : lookupField fields key with
        | none => rw [hl] at h; exact absurd h (by simp)
        | some v' => rw [hl] at h; exact Resolves.cons hl ((ih v' w).mp h)
      | .null | .bool _ | .num _ | .str _ | .arr _ =>
        simp [walkPath] at h
    · rintro ⟨⟩
      case cons fields v' hl hr =>
        simp only [walkPath, hl]
        exact (ih v' w).mpr hr

/-- Helper for C8: the walk returns the "key not found" error exactly when
it gets stuck at a key absent from the object it is looked up in. -/
theorem walkPath_missing_iff (keys : List String) :
    ∀ (v : Value) (k : String),
      walkPath keys v = .error (.pathNotFound k) ↔ FailsMissing v keys k := by
  induction keys with
  | nil =>
    intro v k
    constructor
    · intro h; exact absurd h (by simp [walkPath])
    · rintro ⟨⟩
  | cons key rest ih =>
    intro v k
    constructor
    · intro h
      match v with
      | .obj fields =>
        simp only [walkPath] at h
        cases hl : lookupField fields key with
        | none =>
          rw [hl] at h
          obtain rfl : key = k := by simpa using h
          exact FailsMissing.here hl
        | some v' => rw [hl] at h; exact FailsMissing.there hl ((ih v' k).mp h)
      | .null | .bool _ | .num _ | .str _ | .arr _ =>
        simp [walkPath] at h
    · rintro (⟨hl⟩ | ⟨hl, hr⟩)
      · simp [walkPath, hl]
      · simp only [walkPath, hl]
        exact (ih _ k).mpr hr

/-- Helper for C8: the walk returns the "expected an object" error exactly
when it gets stuck trying to look a key up in a non-object value. -/
theorem walkPath_type_iff (keys : List String) :
    ∀ (v : Value) (k : String),
      walkPath keys v = .error (.typeMismatch k) ↔ FailsType v keys k := by
  induction keys with
  | nil =>
    intro v k
    constructor
    · intro h; exact absurd h (by simp [walkPath])
    · rintro ⟨⟩
  | cons key rest ih =>
    intro v k
    constructor
    · intro h
      match v with
      | .obj fields =>
        simp only [walkPath] at h
        cases hl : lookupField fields key with
        | none => rw [hl] at h; exact absurd h (by simp)
        | some v' => rw [hl] at h; exact FailsType.there hl ((ih v' k).mp h)
      | .null | .bool _ | .num _ | .str _ | .arr _ =>
        simp only [walkPath] at h
        obtain rfl : key = k := by simpa using h
        exact FailsType.here (by simp [Value.isObj])
    · rintro (⟨hobj⟩ | ⟨hl, hr⟩)
      case here =>
        match v with
        | .obj fields => simp [Value.isObj] at hobj
        | .null | .bool _ | .num _ | .str _ | .arr _ => simp [walkPath]
      case there =>
        simp only [walkPath, hl]
        exact (ih _ k).mpr hr

/-- C8: `get_value_by_path` on a JSON object and a dot-delimited key path
returns the "key not found" error (`PathNotFound`) exactly when the walk
reaches an object missing the next key, returns the "expected an object"
error (`TypeMismatch`) exactly when a value reached at an intermediate
path segment is not a JSON object while a key remains to be looked up, and
otherwise returns precisely the value located at the full path. -/
theorem get_value_by_path_characterized (map : List (String × Value))
    (path : String) :
    (∀ w, get_value_by_path_raw map path = .ok w ↔
        Resolves (Value.obj map) (splitOnChar '.' path) w) ∧
    (∀ k, get_value_by_path_raw map path = .error (.pathNotFound k) ↔
        FailsMissing (Value.obj map) (splitOnChar '.' path) k) ∧
    (∀ k, get_value_by_path_raw map path = .error (.typeMismatch k) ↔
        FailsType (Value.obj map) (splitOnChar '.' path) k) :=
  ⟨fun w => walkPath_ok_iff _ _ w,
   fun k => walkPath_missing_iff _ _ k,
   fun k => walkPath_type_iff _ _ k⟩

/-- Helper for C10: a successfully deserialized `u32` is below `2^32`. -/
theorem deserialize_u32_lt {v : Value} {n : Nat}
    (h : deserialize_u32 v = some n) : n < 2 ^ 32 := by
  match v with
  | .num (.posInt m) =>
    simp only [deserialize_u32] at h
    split at h
    · cases h; assumption
    · cases h
  | .null | .bool _ | .num (.negInt _) | .num .float | .str _ | .arr _ | .obj _ =>
    simp [deserialize_u32] at h

/-- C10: balances are `u32`-typed. If the JSON number at the configured
balance path is negative, a float (hence in particular fractional), or at
least `2^32`, `get_address_sats` fails with the deserialization error; and
every balance it does return is at most `4294967295`. -/
theorem balance_bounded_u32 :
    (∀ (map : List (String × Value)) (path unit : String) (n : JNum),
       get_value_by_path_raw map path = .ok (.num n) → n.badForU32 = true →
       get_address_sats_model map path unit = .error (.deserializeFailed path)) ∧
    (∀ (map : List (String × Value)) (path unit : String) (b : Nat),
       get_address_sats_model map path unit = .ok b → b ≤ 4294967295) := by
  constructor
  · intro map path unit n h hbad
    have hde : deserialize_u32 (.num n) = none := by
      match n with
      | .posInt m =>
        simp only [JNum.badForU32, decide_eq_true_eq] at hbad
        simp only [deserialize_u32]
        rw [if_neg (by omega)]
      | .negInt m => rfl
      | .float => rfl
    unfold get_address_sats_model get_value_by_path_u32
    rw [h]
    simp [hde]
  · intro map path unit b h
    unfold get_address_sats_model get_value_by_path_u32 at h
    cases hr : get_value_by_path_raw map path with
    | error e => rw [hr] at h; simp at h
    | ok v =>
      rw [hr] at h
      cases hd : deserialize_u32 v with
      | none => simp [hd] at h
      | some bal =>
        have hlt : bal < 2 ^ 32 := deserialize_u32_lt hd
        simp only [hd] at h
        split at h
        · cases h
          have := Nat.div_le_self bal 100000000
          omega
        · cases h; omega
        · cases h

/-- Witness for C10: a negative balance value fails deserialization, and a
small positive one is returned within the `u32` bound. -/
theorem balance_bounded_u32_witness :
    get_address_sats_model [("balance", .num (.negInt (-1)))] "balance" "sat" =
      .error (.deserializeFailed "balance") ∧
    (7 : Nat) ≤ 4294967295 :=
  ⟨balance_bounded_u32.1 [("balance", .num (.negInt (-1)))] "balance" "sat"
      (.negInt (-1)) rfl rfl,
   balance_bounded_u32.2 [("balance", .num (.posInt 7))] "balance" "sat" 7 rfl⟩

/-- C9: when `--query` is supplied and the lookup succeeds, `main` performs
exactly one balance fetch (for that address), prints the pretty-printed
JSON response, and exits successfully — whatever the other arguments, the
environment, or the library functions are — and the trace contains no
derivation event (nor any scan output), so the derivation/encoding/scanning
pipeline is never invoked. -/
theorem query_short_circuit (lib : Lib Xpub PubKey XOnlyKey) (P : Parsers Xpub)
    (q : QueryApi) (api : String → Except ApiErr Nat) (env : MainEnv)
    (args : Args) (query : String) (resp : List (String × Value))
    (hq : args.query = some query) (hfetch : q.fetchJson query = .ok resp) :
    mainModel lib P q api env args =
      ([Event.fetch query, Event.printJson (q.pretty resp)], .ok) ∧
    (mainModel lib P q api env args).1.filterMap Event.deriveOf = [] ∧
    (mainModel lib P q api env args).1.filterMap Event.fetchOf = [query] := by
  have h : mainModel lib P q api env args =
      ([Event.fetch query, Event.printJson (q.pretty resp)], .ok) := by
    unfold mainModel
    rw [hq]
    simp [hfetch]
  exact ⟨h, by rw [h]; rfl, by rw [h]; rfl⟩

/-- Witness for C9: a concrete run with `--query addr` (and nonsense
values everywhere else). -/
theorem query_short_circuit_witness :
    mainModel unitLib
      ⟨fun _ => some (), fun _ => some [], fun _ => some 0⟩
      ⟨fun _ => .ok [], fun _ => "\x7b\x7d"⟩
      (fun _ => .ok 0)
      ⟨none, none, none, none⟩
      ⟨none, none, none, none, some "addr"⟩ =
      ([Event.fetch "addr", Event.printJson "\x7b\x7d"], .ok) :=
  (query_short_circuit _ _ _ _ _ _ "addr" [] rfl rfl).1

/-- Helper for C1-C3: when every derivation succeeds and the range stays
below the hardened boundary, the derivation loop starting at the normal
index `s` with limit `s + n` performs exactly the derivations at
`parent/s`, `parent/(s+1)`, …, `parent/(s+n-1)`, in that order, and
collects the corresponding keys. -/
theorem deriveLoop_range (lib : Lib Xpub PubKey XOnlyKey) (xpub : Xpub)
    (parent : List ChildNumber) (keyFn : List ChildNumber → Xpub)
    (hd : ∀ dp, lib.derive_pub xpub dp = .ok (keyFn dp)) :
    ∀ (n s : Nat), s + n < 2 ^ 31 →
      deriveLoop lib xpub parent (s + n) (.normal s) =
        ((List.range n).map (fun k => Event.derive (child parent (.normal (s + k)))),
         .ok ((List.range n).map (fun k => keyFn (child parent (.normal (s + k)))))) := by
  intro n
  induction n with
  | zero =>
    intro s hs
    rw [deriveLoop]
    simp [ChildNumber.toU32]
  | succ n ih =>
    intro s hs
    have hinc : ChildNumber.increment (.normal s) = .ok (.normal (s + 1)) := by
      show ChildNumber.from_normal_idx (s + 1) = _
      simp only [ChildNumber.from_normal_idx]
      rw [if_pos (by omega)]
    rw [deriveLoop]
    rw [dif_pos (show ChildNumber.toU32 (.normal s) < s + (n + 1) by
      simp [ChildNumber.toU32])]
    simp only [hd]
    rw [show s + (n + 1) = (s + 1) + n from by omega]
    split
    · next e heq => rw [hinc] at heq; simp at heq
    · next cn' heq =>
      rw [hinc] at heq
      injection heq with h
      subst h
      rw [ih (s + 1) (by omega)]
      simp only [Except.map, List.range_succ_eq_map, List.map_cons, List.map_map,
        Prod.mk.injEq, Nat.add_zero, List.cons.injEq, Except.ok.injEq, Function.comp]
      refine ⟨⟨trivial, ?_⟩, trivial, ?_⟩
      · exact List.map_congr_left fun a _ => by
          simp only [Function.comp_apply]
          exact congrArg (fun i => Event.derive (child parent (ChildNumber.normal i)))
            (by omega)
      · exact List.map_congr_left fun a _ => by
          simp only [Function.comp_apply]
          exact congrArg (fun i => keyFn (child parent (ChildNumber.normal i)))
            (by omega)

/-- Helper for C1-C3: when every balance fetch succeeds, one kind's loop
over the derived keys emits, for each key in order, its fetch followed by
its printed pair, and reports success. -/
theorem addrLoop_ok (api : String → Except ApiErr Nat) (enc : Xpub → String)
    (balFn : String → Nat) (ha : ∀ a, api a = .ok (balFn a)) :
    ∀ pks : List Xpub,
      addrLoop api enc pks =
        (pks.flatMap (fun pk =>
          [Event.fetch (enc pk), Event.emit (enc pk) (balFn (enc pk))]), .ok ()) := by
  intro pks
  induction pks with
  | nil => rfl
  | cons pk rest ih => simp [addrLoop, ha, ih]

/-- Helper for C1-C3: when every balance fetch succeeds, the sequence of
guarded kind blocks concatenates, in the order given, the traces of the
kinds whose guard holds, and reports success. -/
theorem kindLoops_ok (lib : Lib Xpub PubKey XOnlyKey)
    (api : String → Except ApiErr Nat) (addr_types : List ScriptPubKeyType)
    (pks : List Xpub) (balFn : String → Nat)
    (ha : ∀ a, api a = .ok (balFn a)) :
    ∀ ts : List ScriptPubKeyType,
      kindLoops lib api addr_types pks ts =
        ((ts.filter (kindGuard addr_types)).flatMap
           (fun t => (addrLoop api (encoderOf lib t) pks).1), .ok ()) := by
  intro ts
  induction ts with
  | nil => rfl
  | cons t rest ih =>
    by_cases hg : kindGuard addr_types t
    · simp [kindLoops, hg, addrLoop_ok api _ balFn ha, ih, List.filter_cons]
    · simp [kindLoops, hg, ih, List.filter_cons]

/-- Helper for C1-C3: the full trace-and-outcome of a successful scan
starting at the normal index `s` over `n` indices: the derivation events in
index order, followed by one block per requested kind (in the fixed
P2PKH, P2SHWPKH, P2WPKH, P2TR order), each block being, per derived key in
index order, a balance fetch followed by the emitted pair. -/
theorem scan_eq (lib : Lib Xpub PubKey XOnlyKey)
    (api : String → Except ApiErr Nat) (xpub : Xpub)
    (parent : List ChildNumber) (s n : Nat)
    (addr_types : List ScriptPubKeyType)
    (keyFn : List ChildNumber → Xpub) (balFn : String → Nat)
    (hs : s + n < 2 ^ 31)
    (hd : ∀ dp, lib.derive_pub xpub dp = .ok (keyFn dp))
    (ha : ∀ a, api a = .ok (balFn a)) :
    scan lib api xpub parent (.normal s) addr_types n =
      ((List.range n).map (fun k => Event.derive (child parent (.normal (s + k)))) ++
        (allKinds.filter (kindGuard addr_types)).flatMap (fun t =>
          ((List.range n).map (fun k => keyFn (child parent (.normal (s + k))))).flatMap
            (fun pk => [Event.fetch (encoderOf lib t pk),
                        Event.emit (encoderOf lib t pk) (balFn (encoderOf lib t pk))])),
       .ok ()) := by
  unfold scan
  simp only [show (ChildNumber.toU32 (.normal s) + n) % 2 ^ 32 = s + n from
      Nat.mod_eq_of_lt (by simp only [ChildNumber.toU32]; omega),
    deriveLoop_range lib xpub parent keyFn hd n s hs,
    kindLoops_ok lib api addr_types _ balFn ha,
    addrLoop_ok api _ balFn ha, Except.mapError]

/-- Helper: a trace projection distributes over a concatenation of
per-kind blocks. -/
theorem proj_flatMap {α β : Type} (l : List α) (g : α → List Event)
    (f : Event → Option β) :
    (l.flatMap g).filterMap f = l.flatMap (fun a => (g a).filterMap f) := by
  induction l <;> simp_all

/-- Helper: the derivation paths of a block of derivation events. -/
theorem proj_deriveOf_deriveBlock {α : Type} (f : α → List ChildNumber)
    (l : List α) :
    (l.map (fun a => Event.derive (f a))).filterMap Event.deriveOf = l.map f := by
  induction l <;> simp_all [Event.deriveOf]

/-- Helper: a fetch/emit block contains no derivation events. -/
theorem proj_deriveOf_fetchBlock {α : Type} (g : α → String) (b : α → Nat)
    (l : List α) :
    (l.flatMap (fun pk =>
      [Event.fetch (g pk), Event.emit (g pk) (b pk)])).filterMap Event.deriveOf = [] := by
  rw [List.filterMap_eq_nil_iff]
  intro e he
  simp only [List.mem_flatMap, List.mem_cons, List.not_mem_nil, or_false] at he
  obtain ⟨x, _, (rfl | rfl)⟩ := he <;> rfl

/-- Helper: a block of derivation events emits no pairs. -/
theorem proj_emitOf_deriveBlock {α : Type} (f : α → List ChildNumber)
    (l : List α) :
    (l.map (fun a => Event.derive (f a))).filterMap Event.emitOf = [] := by
  induction l <;> simp_all [Event.emitOf]

/-- Helper: the pairs emitted by one kind's fetch/emit block, in order. -/
theorem proj_emitOf_fetchBlock {α : Type} (g : α → String) (b : α → Nat)
    (l : List α) :
    (l.flatMap (fun pk =>
      [Event.fetch (g pk), Event.emit (g pk) (b pk)])).filterMap Event.emitOf =
      l.map (fun pk => (g pk, b pk)) := by
  induction l <;> simp_all [Event.emitOf]

/-- Helper: a block of derivation events fetches nothing. -/
theorem proj_fetchOf_deriveBlock {α : Type} (f : α → List ChildNumber)
    (l : List α) :
    (l.map (fun a => Event.derive (f a))).filterMap Event.fetchOf = [] := by
  induction l <;> simp_all [Event.fetchOf]

/-- Helper: the addresses fetched by one kind's block, in order. -/
theorem proj_fetchOf_fetchBlock {α : Type} (g : α → String) (b : α → Nat)
    (l : List α) :
    (l.flatMap (fun pk =>
      [Event.fetch (g pk), Event.emit (g pk) (b pk)])).filterMap Event.fetchOf =
      l.map g := by
  induction l <;> simp_all [Event.fetchOf]

/-- Helper: a block of derivation events has no emitted addresses. -/
theorem proj_emitAddrOf_deriveBlock {α : Type} (f : α → List ChildNumber)
    (l : List α) :
    (l.map (fun a => Event.derive (f a))).filterMap Event.emitAddrOf = [] := by
  induction l <;> simp_all [Event.emitAddrOf]

/-- Helper: the addresses emitted by one kind's block, in order —
independent of the fetched balances. -/
theorem proj_emitAddrOf_fetchBlock {α : Type} (g : α → String) (b : α → Nat)
    (l : List α) :
    (l.flatMap (fun pk =>
      [Event.fetch (g pk), Event.emit (g pk) (b pk)])).filterMap Event.emitAddrOf =
      l.map g := by
  induction l <;> simp_all [Event.emitAddrOf]

/-- C1 counterexample: the claim, as stated, fails at the boundary request
whose start index is the maximal valid non-hardened index. For the scan at
`s = 2^31 - 1`, `n = 1`, requested kind P2WPKH, with derivation and every
balance fetch succeeding, the claim demands exactly one emitted
`(address, balance)` pair. The code derives the (valid) index `2^31 - 1`
and then — because the loop increments `cn` once more after the last
derivation — aborts with the increment-overflow error before any balance
is queried or any pair emitted. -/
theorem scan_boundary_aborts :
    ((scan unitLib
        (fun _ => .ok 7) () [] (.normal (2 ^ 31 - 1)) [.P2WPKH] 1).1.filterMap
      Event.emitOf = []) ∧
    (scan unitLib
        (fun _ => .ok 7) () [] (.normal (2 ^ 31 - 1)) [.P2WPKH] 1).2 =
      .error (.bip32 (.invalidChildNumber (2 ^ 31))) := by
  have hincfail : ChildNumber.increment (.normal (2 ^ 31 - 1)) =
      .error (.invalidChildNumber (2 ^ 31)) := rfl
  have hstep : unitLib.derive_pub () (child [] (.normal (2 ^ 31 - 1))) =
      .ok () := rfl
  have hloop : deriveLoop unitLib () [] 2147483648 (.normal (2 ^ 31 - 1)) =
      ([Event.derive (child [] (.normal (2 ^ 31 - 1)))],
       .error (.bip32 (.invalidChildNumber (2 ^ 31)))) := by
    rw [deriveLoop]
    rw [dif_pos (by norm_num [ChildNumber.toU32])]
    simp only [hstep]
    split
    · next e heq =>
        rw [hincfail] at heq
        injection heq with h'
        rw [← h']
    · next cn' heq => rw [hincfail] at heq; simp at heq
  have hscan : scan unitLib
      (fun _ => .ok 7) () [] (.normal (2 ^ 31 - 1)) [.P2WPKH] 1 =
      ([Event.derive (child [] (.normal (2 ^ 31 - 1)))],
       .error (.bip32 (.invalidChildNumber (2 ^ 31)))) := by
    unfold scan
    simp only [show (ChildNumber.toU32 (.normal (2 ^ 31 - 1)) + 1) % 2 ^ 32 =
        2147483648 from by norm_num [ChildNumber.toU32], hloop]
  rw [hscan]
  exact ⟨rfl, rfl⟩

/-- C1 (amended): for every scan request with non-hardened start index `s`
and count `n` such that `s + n < 2^31` (the increment performed after the
final derivation must itself stay in range: at `s + n = 2^31` the code
derives all `n` keys but aborts on the increment overflow before emitting
anything — see the counterexample), with every derivation and balance
fetch succeeding: the scan succeeds; the orchestrator derives child keys
at exactly the paths `parent/s, …, parent/(s+n-1)`, in increasing order;
no derivation is attempted at any index `≥ s + n`; and each requested
address kind's block emits exactly `n` `(address, balance)` pairs. -/
theorem scan_range_exact (lib : Lib Xpub PubKey XOnlyKey)
    (api : String → Except ApiErr Nat) (xpub : Xpub) (parent : List ChildNumber)
    (s n : Nat) (addr_types : List ScriptPubKeyType)
    (keyFn : List ChildNumber → Xpub) (balFn : String → Nat)
    (hs : s + n < 2 ^ 31)
    (hd : ∀ dp, lib.derive_pub xpub dp = .ok (keyFn dp))
    (ha : ∀ a, api a = .ok (balFn a)) :
    (scan lib api xpub parent (.normal s) addr_types n).2 = .ok () ∧
    (scan lib api xpub parent (.normal s) addr_types n).1.filterMap Event.deriveOf =
      (List.range n).map (fun k => child parent (.normal (s + k))) ∧
    (∀ j, s + n ≤ j →
      child parent (.normal j) ∉
        (scan lib api xpub parent (.normal s) addr_types n).1.filterMap Event.deriveOf) ∧
    ∀ t ∈ allKinds.filter (kindGuard addr_types),
      ((addrLoop api (encoderOf lib t)
          ((List.range n).map (fun k => keyFn (child parent (.normal (s + k)))))).1.filterMap
        Event.emitOf).length = n := by
  have hscan := scan_eq lib api xpub parent s n addr_types keyFn balFn hs hd ha
  have hproj : (scan lib api xpub parent (.normal s) addr_types n).1.filterMap
      Event.deriveOf = (List.range n).map (fun k => child parent (.normal (s + k))) := by
    rw [hscan]
    simp only [List.filterMap_append, proj_deriveOf_deriveBlock, proj_flatMap,
      proj_deriveOf_fetchBlock, List.flatMap_nil]
    simp [Event.deriveOf]
  refine ⟨by rw [hscan], hproj, ?_, ?_⟩
  · intro j hj hmem
    rw [hproj] at hmem
    simp only [List.mem_map, List.mem_range] at hmem
    obtain ⟨k, hk, hkeq⟩ := hmem
    have hk2 : s + k = j := by simpa [child] using hkeq
    omega
  · intro t ht
    rw [addrLoop_ok api _ balFn ha]
    simp only [proj_emitOf_fetchBlock, List.length_map, List.length_range]

/-- Witness for amended C1: a defaulted-kinds scan of two indices from 0
with all-success derivation and lookups. -/
theorem scan_range_exact_witness :
    ((scan unitLib
        (fun _ => .ok 7) () [] (.normal 0) [] 2).2 = .ok ()) ∧
    ((scan unitLib
        (fun _ => .ok 7) () [] (.normal 0) [] 2).1.filterMap Event.deriveOf =
      (List.range 2).map (fun k => child [] (.normal (0 + k)))) ∧
    (∀ j, 0 + 2 ≤ j →
      child [] (.normal j) ∉
        (scan unitLib
          (fun _ => .ok 7) () [] (.normal 0) [] 2).1.filterMap Event.deriveOf) ∧
    ∀ t ∈ allKinds.filter (kindGuard []),
      ((addrLoop (fun _ => .ok 7)
          (encoderOf unitLib t)
          ((List.range 2).map (fun _ => ()))).1.filterMap Event.emitOf).length = 2 :=
  scan_range_exact _ _ () [] 0 2 [] (fun _ => ()) (fun _ => 7)
    (by norm_num) (fun _ => rfl) (fun _ => rfl)

/-- C2: for a successful scan over more than one requested (or, if the
request list is empty, defaulted) address kind, the emitted trace is the
derivation events followed by exactly one block per requested kind, in the
fixed P2PKH, P2SHWPKH, P2WPKH, P2TR order (`allKinds` filtered by the
request guard): each block queries and emits all of its kind's
`(address, balance)` pairs in increasing index order before the next
kind's block begins, so kinds are never interleaved by index. -/
theorem scan_grouped_by_kind (lib : Lib Xpub PubKey XOnlyKey)
    (api : String → Except ApiErr Nat) (xpub : Xpub) (parent : List ChildNumber)
    (s n : Nat) (addr_types : List ScriptPubKeyType)
    (keyFn : List ChildNumber → Xpub) (balFn : String → Nat)
    (hs : s + n < 2 ^ 31)
    (hd : ∀ dp, lib.derive_pub xpub dp = .ok (keyFn dp))
    (ha : ∀ a, api a = .ok (balFn a))
    (htwo : 2 ≤ (allKinds.filter (kindGuard addr_types)).length) :
    (scan lib api xpub parent (.normal s) addr_types n).1 =
      (List.range n).map (fun k => Event.derive (child parent (.normal (s + k)))) ++
        (allKinds.filter (kindGuard addr_types)).flatMap (fun t =>
          ((List.range n).map (fun k => keyFn (child parent (.normal (s + k))))).flatMap
            (fun pk => [Event.fetch (encoderOf lib t pk),
                        Event.emit (encoderOf lib t pk) (balFn (encoderOf lib t pk))])) := by
  rw [scan_eq lib api xpub parent s n addr_types keyFn balFn hs hd ha]

/-- Witness for C2: the defaulted request (empty type list) scans all four
kinds, in the fixed order, grouped kind-then-index. -/
theorem scan_grouped_by_kind_witness :
    (scan unitLib
        (fun _ => .ok 7) () [] (.normal 0) [] 2).1 =
      (List.range 2).map (fun k => Event.derive (child [] (.normal (0 + k)))) ++
        (allKinds.filter (kindGuard [])).flatMap (fun t =>
          ((List.range 2).map (fun _ => ())).flatMap
            (fun pk =>
              [Event.fetch (encoderOf unitLib t pk),
               Event.emit (encoderOf unitLib t pk) 7])) :=
  scan_grouped_by_kind _ _ () [] 0 2 [] (fun _ => ()) (fun _ => 7)
    (by norm_num) (fun _ => rfl) (fun _ => rfl) (by decide)

/-- C3: the derivation-and-encoding pipeline is a deterministic function
of the extended public key and the derivation path, with no dependence on
hidden state: the child keys collected by the derivation loop are the
fixed per-path values, and two scans of the same `(xpub, path)` request —
even against balance lookups returning different data, the only
run-to-run-varying environment of the model — attempt identical
derivation paths, query identical address strings, and emit identical
address strings; only the fetched balances can differ. -/
theorem pipeline_deterministic (lib : Lib Xpub PubKey XOnlyKey)
    (api1 api2 : String → Except ApiErr Nat) (xpub : Xpub)
    (parent : List ChildNumber) (s n : Nat) (addr_types : List ScriptPubKeyType)
    (keyFn : List ChildNumber → Xpub) (balFn1 balFn2 : String → Nat)
    (hs : s + n < 2 ^ 31)
    (hd : ∀ dp, lib.derive_pub xpub dp = .ok (keyFn dp))
    (h1 : ∀ a, api1 a = .ok (balFn1 a))
    (h2 : ∀ a, api2 a = .ok (balFn2 a)) :
    (deriveLoop lib xpub parent (s + n) (.normal s)).2 =
      .ok ((List.range n).map (fun k => keyFn (child parent (.normal (s + k))))) ∧
    (scan lib api1 xpub parent (.normal s) addr_types n).1.filterMap Event.deriveOf =
      (scan lib api2 xpub parent (.normal s) addr_types n).1.filterMap Event.deriveOf ∧
    (scan lib api1 xpub parent (.normal s) addr_types n).1.filterMap Event.fetchOf =
      (scan lib api2 xpub parent (.normal s) addr_types n).1.filterMap Event.fetchOf ∧
    (scan lib api1 xpub parent (.normal s) addr_types n).1.filterMap Event.emitAddrOf =
      (scan lib api2 xpub parent (.normal s) addr_types n).1.filterMap Event.emitAddrOf := by
  refine ⟨by rw [deriveLoop_range lib xpub parent keyFn hd n s hs], ?_, ?_, ?_⟩ <;>
  · rw [scan_eq lib api1 xpub parent s n addr_types keyFn balFn1 hs hd h1,
      scan_eq lib api2 xpub parent s n addr_types keyFn balFn2 hs hd h2]
    simp only [List.filterMap_append, proj_flatMap, proj_deriveOf_deriveBlock,
      proj_deriveOf_fetchBlock, proj_fetchOf_deriveBlock, proj_fetchOf_fetchBlock,
      proj_emitAddrOf_deriveBlock, proj_emitAddrOf_fetchBlock]
    simp [Event.deriveOf, Event.fetchOf, Event.emitAddrOf]

/-- Witness for C3: two runs whose balance APIs return different values
(1 and 2) produce the same derivations and address strings. -/
theorem pipeline_deterministic_witness :
    ((deriveLoop unitLib () [] (0 + 2) (.normal 0)).2 =
      .ok ((List.range 2).map (fun _ => ()))) ∧
    ((scan unitLib
        (fun _ => .ok 1) () [] (.normal 0) [.P2WPKH] 2).1.filterMap Event.deriveOf =
      (scan unitLib
        (fun _ => .ok 2) () [] (.normal 0) [.P2WPKH] 2).1.filterMap Event.deriveOf) ∧
    ((scan unitLib
        (fun _ => .ok 1) () [] (.normal 0) [.P2WPKH] 2).1.filterMap Event.fetchOf =
      (scan unitLib
        (fun _ => .ok 2) () [] (.normal 0) [.P2WPKH] 2).1.filterMap Event.fetchOf) ∧
    ((scan unitLib
        (fun _ => .ok 1) () [] (.normal 0) [.P2WPKH] 2).1.filterMap Event.emitAddrOf =
      (scan unitLib
        (fun _ => .ok 2) () [] (.normal 0) [.P2WPKH] 2).1.filterMap Event.emitAddrOf) :=
  pipeline_deterministic _ _ _ () [] 0 2 [.P2WPKH] (fun _ => ())
    (fun _ => 1) (fun _ => 2) (by norm_num) (fun _ => rfl) (fun _ => rfl)
    (fun _ => rfl)

end XpubScan
